import Mathlib

/-!
# Verification of the Coffee-Shop POS data-access and event layer

Shallow embedding of `src/services/db.ts`, `src/types.ts` and the kiosk
status reconciler of `src/components/CustomerKiosk.tsx`.

Modelling conventions:
* `localStorage` collections become lists held in a `DBState` record;
  each mutating operation returns the new state together with the list of
  events it broadcasts (`broadcastUpdate` calls, in order).
* `Date.now()` is passed in explicitly as a `now` argument wherever the
  source reads the clock.
* JS `Array.prototype.sort` with comparator `(a, b) => b.timestamp - a.timestamp`
  is a stable descending sort on `timestamp`; it is modelled by
  `List.mergeSort` with the boolean relation `b.timestamp ≤ a.timestamp`,
  which is likewise stable.
* `new Date(d).setHours(0,0,0,0)` / `setHours(23,59,59,999)` produce the
  millisecond bounds of the local calendar day of `d`; they are modelled by
  a `DayWindow` of the two bounds.
-/

/-- `MenuItem` from `src/types.ts`. -/
structure MenuItem where
  id : Nat
  name : String
  price : Nat
  category : String
  image : Option String
  description : Option String
deriving DecidableEq, Repr

/-- `CartItem` from `src/types.ts` (`MenuItem` fields plus quantity etc.). -/
structure CartItem where
  id : Nat
  name : String
  price : Nat
  category : String
  image : Option String
  description : Option String
  quantity : Nat
  instructions : Option String
  cartId : Option String
deriving DecidableEq, Repr

/-- `OrderStatus` from `src/types.ts`. -/
inductive OrderStatus
  | pending
  | preparing
  | ready
  | completed
  | cancelled
deriving DecidableEq, Repr, Fintype

/-- `Customer` from `src/types.ts`. -/
structure Customer where
  id : String
  name : String
  phone : String
  address : String
  password : Option String
deriving DecidableEq, Repr

/-- `Order` from `src/types.ts`. -/
structure Order where
  id : Nat
  timestamp : Int
  tableNumber : String
  customerName : String
  customerId : Option String
  items : List CartItem
  total : Nat
  status : OrderStatus
deriving DecidableEq, Repr

/-- `DBEventType` from `src/services/db.ts`. -/
inductive DBEventType
  | NEW_ORDER
  | STATUS_UPDATE
  | MENU_UPDATE
  | GENERIC_UPDATE
deriving DecidableEq, Repr

/-- The `data?` payload of a `DBEvent`: absent, a full order (`NEW_ORDER`),
or `{orderId, status}` (`STATUS_UPDATE`). -/
inductive DBEventData
  | noData
  | order (o : Order)
  | statusUpdate (orderId : Nat) (status : OrderStatus)
deriving DecidableEq, Repr

/-- `DBEvent` from `src/services/db.ts`. -/
structure DBEvent where
  type : DBEventType
  data : DBEventData
deriving DecidableEq, Repr

/-- The three `localStorage` collections of the persistent store. -/
structure DBState where
  menu : List MenuItem
  orders : List Order
  customers : List Customer
deriving DecidableEq, Repr

/-- The JS comparator `(a, b) => b.timestamp - a.timestamp` as a boolean
relation: `a` may precede `b` when `b.timestamp ≤ a.timestamp`. -/
def orderLe (a b : Order) : Bool := b.timestamp ≤ a.timestamp

/-- `orders.sort((a, b) => b.timestamp - a.timestamp)`: stable descending
sort by `timestamp`. -/
def sortOrders (l : List Order) : List Order := l.mergeSort orderLe

/-- `orders.find(o => o.id === orderId)` followed by `order.status = status`:
update the status of the first order whose id matches, in place. -/
def setStatusFirst : List Order → Nat → OrderStatus → List Order
  | [], _, _ => []
  | o :: rest, oid, st =>
    if o.id = oid then { o with status := st } :: rest
    else o :: setStatusFirst rest oid st

/-- `Omit<MenuItem, 'id'>`, the argument of `addMenuItem`. -/
structure MenuItemData where
  name : String
  price : Nat
  category : String
  image : Option String
  description : Option String
deriving DecidableEq, Repr

/-- `{ ...item, id: newId }` in `addMenuItem`. -/
def mkMenuItem (d : MenuItemData) (now : Nat) : MenuItem :=
  ⟨now, d.name, d.price, d.category, d.image, d.description⟩

/-- `Omit<Customer, 'id'>`, the argument of `registerCustomer`. -/
structure CustomerData where
  name : String
  phone : String
  address : String
  password : Option String
deriving DecidableEq, Repr

/-- The id string `` `CUST-${Date.now()}` ``. -/
def customerIdFor (now : Nat) : String := "CUST-" ++ toString now

/-- The millisecond bounds `[start.setHours(0,0,0,0), end.setHours(23,59,59,999)]`
of one local calendar day. -/
structure DayWindow where
  startMs : Int
  endMs : Int
deriving DecidableEq, Repr

/-- The day window of a `Date` whose local day begins at `dayStart` ms: for a
standard 24-hour local day, `setHours(23,59,59,999)` lands `86399999` ms after
`setHours(0,0,0,0)`. -/
def localDayWindow (dayStart : Int) : DayWindow :=
  ⟨dayStart, dayStart + 86399999⟩

/-- The filter predicate of `getOrdersByDate`:
`order.timestamp >= start.getTime() && order.timestamp <= end.getTime()`. -/
def inWindow (w : DayWindow) (ts : Int) : Bool :=
  w.startMs ≤ ts && ts ≤ w.endMs

namespace DBService

/-- `getOrders()`: parse the stored orders and sort by timestamp descending. -/
def getOrders (s : DBState) : List Order := sortOrders s.orders

/-- `saveOrder(order)`: `getOrders()`, push, write back, broadcast `NEW_ORDER`
with the full order payload. -/
def saveOrder (s : DBState) (o : Order) : DBState × List DBEvent :=
  ({ s with orders := getOrders s ++ [o] },
   [⟨DBEventType.NEW_ORDER, DBEventData.order o⟩])

/-- `updateOrderStatus(orderId, status)`: `getOrders()`, find by id; when found,
mutate its `status` in place, write back, broadcast `STATUS_UPDATE` with
`{orderId, status}`; otherwise do nothing. -/
def updateOrderStatus (s : DBState) (oid : Nat) (st : OrderStatus) :
    DBState × List DBEvent :=
  let orders := getOrders s
  if (orders.find? fun o => o.id == oid).isSome then
    ({ s with orders := setStatusFirst orders oid st },
     [⟨DBEventType.STATUS_UPDATE, DBEventData.statusUpdate oid st⟩])
  else (s, [])

/-- `getMenu()`: parse the stored menu. -/
def getMenu (s : DBState) : List MenuItem := s.menu

/-- `addMenuItem(item)`: `newId = Date.now()`, push `{...item, id: newId}`,
write back, broadcast `MENU_UPDATE`, return the new id. -/
def addMenuItem (s : DBState) (d : MenuItemData) (now : Nat) :
    DBState × Nat × List DBEvent :=
  ({ s with menu := s.menu ++ [mkMenuItem d now] }, now,
   [⟨DBEventType.MENU_UPDATE, DBEventData.noData⟩])

/-- `updateMenuItem(item)`: find the index with matching id; when found,
replace that slot and broadcast `MENU_UPDATE`; otherwise do nothing. -/
def updateMenuItem (s : DBState) (item : MenuItem) : DBState × List DBEvent :=
  match s.menu.findIdx? (fun i => i.id == item.id) with
  | some idx =>
      ({ s with menu := s.menu.set idx item },
       [⟨DBEventType.MENU_UPDATE, DBEventData.noData⟩])
  | none => (s, [])

/-- `deleteMenuItem(id)`: keep the items whose id differs, write back,
broadcast `MENU_UPDATE`. -/
def deleteMenuItem (s : DBState) (id : Nat) : DBState × List DBEvent :=
  ({ s with menu := s.menu.filter fun i => i.id != id },
   [⟨DBEventType.MENU_UPDATE, DBEventData.noData⟩])

/-- `deleteOrder(id)`: `getOrders()`, keep the orders whose id differs, write
back, broadcast `GENERIC_UPDATE` (unconditionally). -/
def deleteOrder (s : DBState) (oid : Nat) : DBState × List DBEvent :=
  ({ s with orders := (getOrders s).filter fun o => o.id != oid },
   [⟨DBEventType.GENERIC_UPDATE, DBEventData.noData⟩])

/-- `getOrdersByDate(date)`: filter `getOrders()` to the inclusive day
window. -/
def getOrdersByDate (s : DBState) (w : DayWindow) : List Order :=
  (getOrders s).filter fun o => inWindow w o.timestamp

/-- `clearOrdersByDate(date)`: keep the orders strictly outside the day window
(`timestamp < start || timestamp > end`), write back, broadcast
`GENERIC_UPDATE`, return `initialCount - orders.length`. -/
def clearOrdersByDate (s : DBState) (w : DayWindow) :
    DBState × Nat × List DBEvent :=
  let orders := getOrders s
  let kept := orders.filter fun o =>
    o.timestamp < w.startMs || w.endMs < o.timestamp
  ({ s with orders := kept }, orders.length - kept.length,
   [⟨DBEventType.GENERIC_UPDATE, DBEventData.noData⟩])

/-- `registerCustomer(customerData)`: throw when some stored customer has the
same phone (store untouched, nothing broadcast); otherwise push the new
customer with id `` `CUST-${Date.now()}` `` and return it (nothing
broadcast). -/
def registerCustomer (s : DBState) (d : CustomerData) (now : Nat) :
    Except String Customer × DBState × List DBEvent :=
  if (s.customers.find? fun c => c.phone == d.phone).isSome then
    (Except.error "Phone number already registered.", s, [])
  else
    let newCustomer : Customer :=
      ⟨customerIdFor now, d.name, d.phone, d.address, d.password⟩
    (Except.ok newCustomer,
     { s with customers := s.customers ++ [newCustomer] }, [])

end DBService

/-- A sequence of `addMenuItem` calls, each with the item data and the
`Date.now()` value it observes. -/
def addMenuItems (s : DBState) (calls : List (MenuItemData × Nat)) : DBState :=
  calls.foldl (fun st c => (DBService.addMenuItem st c.1 c.2).1) s

/-- One menu edit: an `updateMenuItem` or a `deleteMenuItem` call. -/
inductive MenuEdit
  | update (item : MenuItem)
  | delete (id : Nat)
deriving DecidableEq, Repr

/-- Apply one menu edit to the store. -/
def applyMenuEdit (s : DBState) : MenuEdit → DBState
  | MenuEdit.update item => (DBService.updateMenuItem s item).1
  | MenuEdit.delete id => (DBService.deleteMenuItem s id).1

/-- Apply a sequence of menu edits to the store. -/
def applyMenuEdits (s : DBState) (es : List MenuEdit) : DBState :=
  es.foldl applyMenuEdit s

/-- A subscribed listener callback, identified abstractly: distinct JS function
references are distinct listeners. -/
abbrev Listener := Nat

/-- `subscribe(listener)`: `this.listeners.push(listener)`. -/
def subscribeListener (ls : List Listener) (l : Listener) : List Listener :=
  ls ++ [l]

/-- The unsubscribe capability returned by `subscribe`:
`this.listeners = this.listeners.filter(x => x !== listener)`. -/
def unsubscribeListener (ls : List Listener) (l : Listener) : List Listener :=
  ls.filter fun x => x != l

/-- `notifyListeners(event)`: `this.listeners.forEach(l => l(event))`; the
resulting invocation trace, one entry per registered listener, in order. -/
def notifyListeners (ls : List Listener) (e : DBEvent) :
    List (Listener × DBEvent) :=
  ls.map fun l => (l, e)

/-- The observable side effects of the kiosk tracker's `checkStatus` status
comparison (`src/components/CustomerKiosk.tsx`): `prepareAlert` is the soft
sound + info notification, `readyAlert` the prominent sound + success
notification, `unminimize` the `setIsTrackingMinimized(false)` call. -/
structure StatusCheckEffects where
  prepareAlert : Bool
  readyAlert : Bool
  unminimize : Bool
deriving DecidableEq, Repr

/-- The status comparison of `checkStatus`, given the previous locally-held
status and the freshly fetched status:
`activeOrder.status === 'pending' && freshOrder.status === 'preparing'` and
`activeOrder.status !== 'ready' && freshOrder.status === 'ready'`. -/
def checkStatusEffects (prev fresh : OrderStatus) : StatusCheckEffects :=
  { prepareAlert := prev == OrderStatus.pending && fresh == OrderStatus.preparing
    readyAlert := prev != OrderStatus.ready && fresh == OrderStatus.ready
    unminimize := prev != OrderStatus.ready && fresh == OrderStatus.ready }

/-- Descending-by-timestamp sortedness (newest first). -/
def sortedByTimestampDesc (l : List Order) : Prop :=
  l.Pairwise fun a b => b.timestamp ≤ a.timestamp

theorem orderLe_trans (a b c : Order) : orderLe a b → orderLe b c → orderLe a c := by
  simp only [orderLe, decide_eq_true_eq]
  omega

theorem orderLe_total (a b : Order) : orderLe a b || orderLe b a := by
  simp only [orderLe, Bool.or_eq_true, decide_eq_true_eq]
  omega

theorem sortOrders_perm (l : List Order) : List.Perm (sortOrders l) l :=
  List.mergeSort_perm l orderLe

theorem sortOrders_sorted (l : List Order) : sortedByTimestampDesc (sortOrders l) := by
  have h := List.sorted_mergeSort orderLe_trans orderLe_total l
  refine h.imp ?_
  intro a b hab
  simpa [orderLe, decide_eq_true_eq] using hab

theorem sortOrders_of_sorted {l : List Order} (h : sortedByTimestampDesc l) :
    sortOrders l = l := by
  apply List.mergeSort_of_sorted
  refine h.imp ?_
  intro a b hab
  simpa [orderLe, decide_eq_true_eq] using hab

/-- C3: after `saveOrder(o)`, `getOrders()` contains `o` itself (all fields as
passed in), the result is a permutation of the previously stored orders plus
`o`, and — for any stored collection, hence any insertion order — the result
of `getOrders()` is sorted by `timestamp` descending (newest first). -/
theorem saveOrder_getOrders_spec (s : DBState) (o : Order) :
    o ∈ DBService.getOrders (DBService.saveOrder s o).1 ∧
    List.Perm (DBService.getOrders (DBService.saveOrder s o).1) (s.orders ++ [o]) ∧
    sortedByTimestampDesc (DBService.getOrders (DBService.saveOrder s o).1) ∧
    ∀ t : DBState, sortedByTimestampDesc (DBService.getOrders t) := by
  have hperm : List.Perm (DBService.getOrders (DBService.saveOrder s o).1)
      (s.orders ++ [o]) :=
    (sortOrders_perm _).trans ((sortOrders_perm s.orders).append_right [o])
  exact ⟨hperm.mem_iff.mpr (by simp), hperm, sortOrders_sorted _,
    fun t => sortOrders_sorted _⟩

theorem setStatusFirst_of_forall_ne (l : List Order) (oid : Nat) (st : OrderStatus)
    (h : ∀ o ∈ l, o.id ≠ oid) : setStatusFirst l oid st = l := by
  induction l with
  | nil => rfl
  | cons a rest ih =>
    simp only [setStatusFirst]
    rw [if_neg (h a (List.mem_cons_self a rest)),
      ih fun x hx => h x (List.mem_cons_of_mem a hx)]

theorem setStatusFirst_decomp (l : List Order) (oid : Nat) (st : OrderStatus)
    (h : ∃ o ∈ l, o.id = oid) :
    ∃ l₁ o l₂, l = l₁ ++ o :: l₂ ∧ o.id = oid ∧ (∀ x ∈ l₁, x.id ≠ oid) ∧
      setStatusFirst l oid st = l₁ ++ { o with status := st } :: l₂ := by
  induction l with
  | nil => simp at h
  | cons a rest ih =>
    by_cases ha : a.id = oid
    · refine ⟨[], a, rest, by simp, ha, by simp, ?_⟩
      simp [setStatusFirst, ha]
    · have h' : ∃ o ∈ rest, o.id = oid := by
        obtain ⟨o, ho, hoid⟩ := h
        rcases List.mem_cons.mp ho with rfl | h2
        · exact absurd hoid ha
        · exact ⟨o, h2, hoid⟩
      obtain ⟨l₁, o, l₂, heq, hid, hnone, hset⟩ := ih h'
      refine ⟨a :: l₁, o, l₂, by simp [heq], hid, ?_, ?_⟩
      · intro x hx
        rcases List.mem_cons.mp hx with rfl | hx2
        · exact ha
        · exact hnone x hx2
      · simp only [setStatusFirst]
        rw [if_neg ha, hset]
        simp

theorem updateOrderStatus_not_found (s : DBState) (oid : Nat) (st : OrderStatus)
    (h : ∀ o ∈ s.orders, o.id ≠ oid) :
    DBService.updateOrderStatus s oid st = (s, []) := by
  have hf : (DBService.getOrders s).find? (fun o => o.id == oid) = none := by
    apply List.find?_eq_none.mpr
    intro x hx
    have hx' : x ∈ s.orders := (sortOrders_perm s.orders).mem_iff.mp hx
    simp [h x hx']
  simp [DBService.updateOrderStatus, hf]

theorem updateOrderStatus_found (s : DBState) (oid : Nat) (st : OrderStatus)
    (h : ∃ o ∈ s.orders, o.id = oid) :
    (DBService.updateOrderStatus s oid st).1.orders
        = setStatusFirst (DBService.getOrders s) oid st ∧
    (DBService.updateOrderStatus s oid st).1.menu = s.menu ∧
    (DBService.updateOrderStatus s oid st).1.customers = s.customers ∧
    (DBService.updateOrderStatus s oid st).2
        = [⟨DBEventType.STATUS_UPDATE, DBEventData.statusUpdate oid st⟩] := by
  obtain ⟨o, ho, hoid⟩ := h
  have hmem : o ∈ DBService.getOrders s := (sortOrders_perm s.orders).mem_iff.mpr ho
  have hf : ((DBService.getOrders s).find? fun x => x.id == oid).isSome = true := by
    rw [List.find?_isSome]
    exact ⟨o, hmem, by simp [hoid]⟩
  simp [DBService.updateOrderStatus, hf]

/-- C1: if an order with the given id exists, `updateOrderStatus(id, s)`
rewrites the stored collection as the (timestamp-sorted) previous collection
with exactly the first matching order's `status` replaced — all of its other
fields (`total`, `items`, `timestamp`, `tableNumber`, ...) and every other
order are bit-identical — leaves menu and customers untouched, and publishes
exactly one `STATUS_UPDATE` event carrying `{orderId, status}`; if no order
matches, the whole state is unchanged and nothing is published. -/
theorem updateOrderStatus_spec (s : DBState) (oid : Nat) (st : OrderStatus) :
    ((∀ o ∈ s.orders, o.id ≠ oid) →
      DBService.updateOrderStatus s oid st = (s, [])) ∧
    ((∃ o ∈ s.orders, o.id = oid) →
      ∃ l₁ o l₂,
        DBService.getOrders s = l₁ ++ o :: l₂ ∧
        o.id = oid ∧ (∀ x ∈ l₁, x.id ≠ oid) ∧
        (DBService.updateOrderStatus s oid st).1.orders
          = l₁ ++ { o with status := st } :: l₂ ∧
        (DBService.updateOrderStatus s oid st).1.menu = s.menu ∧
        (DBService.updateOrderStatus s oid st).1.customers = s.customers ∧
        (DBService.updateOrderStatus s oid st).2
          = [⟨DBEventType.STATUS_UPDATE, DBEventData.statusUpdate oid st⟩]) := by
  constructor
  · exact updateOrderStatus_not_found s oid st
  · intro h
    obtain ⟨horders, hmenu, hcust, hev⟩ := updateOrderStatus_found s oid st h
    have h' : ∃ o ∈ DBService.getOrders s, o.id = oid := by
      obtain ⟨o, ho, hoid⟩ := h
      exact ⟨o, (sortOrders_perm s.orders).mem_iff.mpr ho, hoid⟩
    obtain ⟨l₁, o, l₂, heq, hid, hnone, hset⟩ :=
      setStatusFirst_decomp (DBService.getOrders s) oid st h'
    exact ⟨l₁, o, l₂, heq, hid, hnone, by rw [horders, hset], hmenu, hcust, hev⟩

/-- Witness for C1: on a store holding one `pending` order with id 1, updating
the status of the absent id 2 changes nothing and publishes nothing, while
updating id 1 to `ready` yields the same order with only `status` changed. -/
theorem updateOrderStatus_spec_witness :
    (DBService.updateOrderStatus
        ⟨[], [⟨1, 100, "T1", "Mo", none, [], 0, OrderStatus.pending⟩], []⟩
        2 OrderStatus.ready
      = (⟨[], [⟨1, 100, "T1", "Mo", none, [], 0, OrderStatus.pending⟩], []⟩, [])) ∧
    ((DBService.updateOrderStatus
        ⟨[], [⟨1, 100, "T1", "Mo", none, [], 0, OrderStatus.pending⟩], []⟩
        1 OrderStatus.ready).1.orders
      = [⟨1, 100, "T1", "Mo", none, [], 0, OrderStatus.ready⟩]) := by
  refine ⟨(updateOrderStatus_spec _ 2 OrderStatus.ready).1 (by decide), ?_⟩
  obtain ⟨l₁, o, l₂, heq, hid, hnone, hset, hmenu, hcust, hev⟩ :=
    (updateOrderStatus_spec
      ⟨[], [⟨1, 100, "T1", "Mo", none, [], 0, OrderStatus.pending⟩], []⟩
      1 OrderStatus.ready).2
      ⟨⟨1, 100, "T1", "Mo", none, [], 0, OrderStatus.pending⟩, by simp, rfl⟩
  have hg : DBService.getOrders
      ⟨[], [⟨1, 100, "T1", "Mo", none, [], 0, OrderStatus.pending⟩], []⟩
      = [⟨1, 100, "T1", "Mo", none, [], 0, OrderStatus.pending⟩] := by
    simp [DBService.getOrders, sortOrders]
  rw [hg] at heq
  cases l₁ with
  | cons a tl =>
      have hlen := congrArg List.length heq
      simp at hlen
  | nil =>
      simp only [List.nil_append] at heq
      cases heq
      simpa using hset

theorem count_notifyListeners (ls : List Listener) (e : DBEvent) (l : Listener) :
    (notifyListeners ls e).count (l, e) = ls.count l := by
  induction ls with
  | nil => rfl
  | cons a rest ih =>
      simp only [notifyListeners, List.map_cons, List.count_cons] at *
      rw [ih]
      congr 1
      simp [Prod.ext_iff]

/-- C2: after any sequence of subscriptions, a publish (`broadcastUpdate` →
`notifyListeners`) invokes each registered listener exactly once per
subscription entry with the published event; a listener absent from the
registration list — never subscribed, or removed by its unsubscribe
capability — is not invoked at all; and `updateOrderStatus` on an existing
order publishes exactly one `STATUS_UPDATE` event carrying
`{orderId, status}`, so each subscription receives it exactly once. -/
theorem subscribe_publish_spec (ls : List Listener) (e : DBEvent) (l : Listener) :
    (notifyListeners ls e).count (l, e) = ls.count l ∧
    (l ∈ ls → (l, e) ∈ notifyListeners ls e) ∧
    (l ∉ ls → (l, e) ∉ notifyListeners ls e) ∧
    l ∉ unsubscribeListener ls l ∧
    (subscribeListener ls l).count l = ls.count l + 1 ∧
    ∀ (s : DBState) (oid : Nat) (st : OrderStatus),
      (∃ o ∈ s.orders, o.id = oid) →
      (DBService.updateOrderStatus s oid st).2
        = [⟨DBEventType.STATUS_UPDATE, DBEventData.statusUpdate oid st⟩] := by
  refine ⟨count_notifyListeners ls e l, ?_, ?_, ?_, ?_, ?_⟩
  · intro h
    simp [notifyListeners]
    exact h
  · intro h hmem
    simp [notifyListeners] at hmem
    exact h hmem
  · simp [unsubscribeListener, List.mem_filter]
  · simp [subscribeListener]
  · intro s oid st h
    exact (updateOrderStatus_found s oid st h).2.2.2

/-- Witness for C2: on a bus whose registration list is `[7]`, listener 7
receives a published event and absent listener 8 does not; updating the single
stored order to `preparing` publishes exactly the `STATUS_UPDATE` payload. -/
theorem subscribe_publish_spec_witness :
    ((7, (⟨DBEventType.GENERIC_UPDATE, DBEventData.noData⟩ : DBEvent)) ∈
        notifyListeners [7] ⟨DBEventType.GENERIC_UPDATE, DBEventData.noData⟩) ∧
    ((8, (⟨DBEventType.GENERIC_UPDATE, DBEventData.noData⟩ : DBEvent)) ∉
        notifyListeners [7] ⟨DBEventType.GENERIC_UPDATE, DBEventData.noData⟩) ∧
    (DBService.updateOrderStatus
        ⟨[], [⟨1, 100, "T1", "Mo", none, [], 0, OrderStatus.pending⟩], []⟩
        1 OrderStatus.preparing).2
      = [⟨DBEventType.STATUS_UPDATE, DBEventData.statusUpdate 1 OrderStatus.preparing⟩] := by
  refine ⟨(subscribe_publish_spec [7] _ 7).2.1 (by decide),
          (subscribe_publish_spec [7] _ 8).2.2.1 (by decide),
          (subscribe_publish_spec [] ⟨DBEventType.GENERIC_UPDATE, DBEventData.noData⟩ 0).2.2.2.2.2
            _ 1 OrderStatus.preparing
            ⟨⟨1, 100, "T1", "Mo", none, [], 0, OrderStatus.pending⟩, by simp, rfl⟩⟩

/-- C4 counterexample: when the tracked order moves from `ready` back to
`preparing` (the admin panel allows backward transitions), the fresh status is
`preparing` and the previous status differs from `preparing`, yet the kiosk
`checkStatus` comparison fires no soft alert — its guard requires the previous
status to be exactly `pending`. -/
theorem checkStatus_prepare_claim_false :
    ¬ (((checkStatusEffects OrderStatus.ready OrderStatus.preparing).prepareAlert = true) ↔
        (OrderStatus.preparing = OrderStatus.preparing ∧
         OrderStatus.ready ≠ OrderStatus.preparing)) := by
  decide

/-- C4 amended: the kiosk `checkStatus` comparison surfaces the soft alert
exactly when the order moves from `pending` to `preparing` (not from every
non-preparing state), and surfaces the prominent alert and un-minimizes the
tracking view exactly when the order enters `ready` from any non-ready
state. -/
theorem checkStatus_effects_spec (p f : OrderStatus) :
    ((checkStatusEffects p f).prepareAlert = true ↔
      (p = OrderStatus.pending ∧ f = OrderStatus.preparing)) ∧
    ((checkStatusEffects p f).readyAlert = true ↔
      (f = OrderStatus.ready ∧ p ≠ OrderStatus.ready)) ∧
    ((checkStatusEffects p f).unminimize = true ↔
      (f = OrderStatus.ready ∧ p ≠ OrderStatus.ready)) := by
  revert p f
  decide

theorem applyMenuEdit_orders (s : DBState) (ed : MenuEdit) :
    (applyMenuEdit s ed).orders = s.orders := by
  cases ed with
  | update item =>
      simp only [applyMenuEdit, DBService.updateMenuItem]
      cases hfound : s.menu.findIdx? (fun i => i.id == item.id) <;> simp
  | delete id => rfl

theorem applyMenuEdit_customers (s : DBState) (ed : MenuEdit) :
    (applyMenuEdit s ed).customers = s.customers := by
  cases ed with
  | update item =>
      simp only [applyMenuEdit, DBService.updateMenuItem]
      cases hfound : s.menu.findIdx? (fun i => i.id == item.id) <;> simp
  | delete id => rfl

theorem applyMenuEdits_orders (s : DBState) (es : List MenuEdit) :
    (applyMenuEdits s es).orders = s.orders := by
  induction es generalizing s with
  | nil => rfl
  | cons e rest ih =>
      simp only [applyMenuEdits, List.foldl_cons]
      rw [show List.foldl applyMenuEdit (applyMenuEdit s e) rest
          = applyMenuEdits (applyMenuEdit s e) rest from rfl,
        ih, applyMenuEdit_orders]

/-- C6: any sequence of `updateMenuItem` and `deleteMenuItem` calls leaves the
stored orders collection untouched, so re-reading via `getOrders()` returns
exactly the same sequence of orders (all fields, embedded item prices and
totals included): menu edits never retroactively alter orders already
placed. -/
theorem menuEdits_orders_frame (s : DBState) (es : List MenuEdit) :
    (applyMenuEdits s es).orders = s.orders ∧
    DBService.getOrders (applyMenuEdits s es) = DBService.getOrders s := by
  refine ⟨applyMenuEdits_orders s es, ?_⟩
  simp [DBService.getOrders, applyMenuEdits_orders s es]

theorem sortedByTimestampDesc_filter (l : List Order) (p : Order → Bool)
    (h : sortedByTimestampDesc l) : sortedByTimestampDesc (l.filter p) :=
  h.sublist (List.filter_sublist l)

/-- C10: `deleteOrder(id)` — an operation the spec does not mention — keeps
exactly the stored orders whose id differs from the given id (as a multiset,
nothing else is added or removed), publishes one `GENERIC_UPDATE` event even
when nothing matched, leaves menu and customers untouched, and a second
identical call leaves the whole state exactly as after the first. -/
theorem deleteOrder_spec (s : DBState) (oid : Nat) :
    List.Perm ((DBService.deleteOrder s oid).1.orders)
      (s.orders.filter fun o => o.id != oid) ∧
    (DBService.deleteOrder s oid).2
      = [⟨DBEventType.GENERIC_UPDATE, DBEventData.noData⟩] ∧
    (DBService.deleteOrder (DBService.deleteOrder s oid).1 oid).1
      = (DBService.deleteOrder s oid).1 ∧
    (DBService.deleteOrder s oid).1.menu = s.menu ∧
    (DBService.deleteOrder s oid).1.customers = s.customers := by
  refine ⟨(sortOrders_perm s.orders).filter _, rfl, ?_, rfl, rfl⟩
  have hsorted : sortedByTimestampDesc ((DBService.deleteOrder s oid).1.orders) :=
    sortedByTimestampDesc_filter _ _ (sortOrders_sorted s.orders)
  have hsort : DBService.getOrders (DBService.deleteOrder s oid).1
      = (DBService.deleteOrder s oid).1.orders :=
    sortOrders_of_sorted hsorted
  have hfix : ((DBService.deleteOrder s oid).1.orders.filter fun o => o.id != oid)
      = (DBService.deleteOrder s oid).1.orders := by
    apply List.filter_eq_self.mpr
    intro a ha
    exact (List.mem_filter.mp ha).2
  show ({ (DBService.deleteOrder s oid).1 with
      orders := (DBService.getOrders (DBService.deleteOrder s oid).1).filter
        fun o => o.id != oid } : DBState) = (DBService.deleteOrder s oid).1
  rw [hsort, hfix]

theorem mem_getOrdersByDate (s : DBState) (w : DayWindow) (o : Order) :
    o ∈ DBService.getOrdersByDate s w ↔
      o ∈ s.orders ∧ w.startMs ≤ o.timestamp ∧ o.timestamp ≤ w.endMs := by
  simp only [DBService.getOrdersByDate, DBService.getOrders, List.mem_filter,
    (sortOrders_perm s.orders).mem_iff, inWindow, Bool.and_eq_true,
    decide_eq_true_eq, and_assoc]

/-- C8: `getOrdersByDate` returns exactly the stored orders whose timestamp
lies in the inclusive local-day window: membership holds precisely for
timestamps between the start of the day and its last millisecond (the end
bound is the start plus `86399999` ms), the result is a permutation of the
window-filtered store, an order stamped `23:59:59.999` on the day is kept,
and one stamped `00:00:00.000` the next day is excluded. -/
theorem getOrdersByDate_spec (s : DBState) (dayStart : Int) (o : Order) :
    (o ∈ DBService.getOrdersByDate s (localDayWindow dayStart) ↔
      o ∈ s.orders ∧ dayStart ≤ o.timestamp ∧ o.timestamp ≤ dayStart + 86399999) ∧
    List.Perm (DBService.getOrdersByDate s (localDayWindow dayStart))
      (s.orders.filter fun x => inWindow (localDayWindow dayStart) x.timestamp) ∧
    (o.timestamp = dayStart + 86399999 →
      (o ∈ DBService.getOrdersByDate s (localDayWindow dayStart) ↔ o ∈ s.orders)) ∧
    (o.timestamp = dayStart + 86400000 →
      o ∉ DBService.getOrdersByDate s (localDayWindow dayStart)) := by
  refine ⟨mem_getOrdersByDate s _ o, (sortOrders_perm s.orders).filter _, ?_, ?_⟩
  · intro hts
    rw [mem_getOrdersByDate]
    simp only [localDayWindow]
    constructor
    · exact fun h => h.1
    · intro h
      exact ⟨h, by omega, by omega⟩
  · intro hts hmem
    have h := (mem_getOrdersByDate s _ o).mp hmem
    simp only [localDayWindow] at h
    omega

/-- Witness for C8: with the day starting at ms 0, an order stamped at
`86399999` (23:59:59.999) is returned by `getOrdersByDate` and an order
stamped at `86400000` (next midnight) is not. -/
theorem getOrdersByDate_spec_witness :
    ((⟨1, 86399999, "T1", "Mo", none, [], 0, OrderStatus.pending⟩ : Order) ∈
      DBService.getOrdersByDate
        ⟨[], [⟨1, 86399999, "T1", "Mo", none, [], 0, OrderStatus.pending⟩], []⟩
        (localDayWindow 0)) ∧
    ((⟨2, 86400000, "T2", "Ko", none, [], 0, OrderStatus.pending⟩ : Order) ∉
      DBService.getOrdersByDate
        ⟨[], [⟨2, 86400000, "T2", "Ko", none, [], 0, OrderStatus.pending⟩], []⟩
        (localDayWindow 0)) := by
  constructor
  · exact ((getOrdersByDate_spec
      ⟨[], [⟨1, 86399999, "T1", "Mo", none, [], 0, OrderStatus.pending⟩], []⟩
      0 ⟨1, 86399999, "T1", "Mo", none, [], 0, OrderStatus.pending⟩).2.2.1
      rfl).mpr (by simp)
  · exact (getOrdersByDate_spec
      ⟨[], [⟨2, 86400000, "T2", "Ko", none, [], 0, OrderStatus.pending⟩], []⟩
      0 ⟨2, 86400000, "T2", "Ko", none, [], 0, OrderStatus.pending⟩).2.2.2
      rfl

theorem length_filter_add_length_filter_not (l : List Order) (p : Order → Bool) :
    (l.filter p).length + (l.filter fun a => !(p a)).length = l.length := by
  induction l with
  | nil => rfl
  | cons a rest ih =>
      by_cases ha : p a = true
      · simp only [List.filter_cons, ha, Bool.not_true, List.length_cons,
          Bool.false_eq_true, if_false, if_true]
        omega
      · simp only [Bool.not_eq_true] at ha
        simp only [List.filter_cons, ha, Bool.not_false, List.length_cons,
          Bool.false_eq_true, if_false, if_true]
        omega

theorem clearKeep_eq_not_inWindow (w : DayWindow) (ts : Int) :
    (decide (ts < w.startMs) || decide (w.endMs < ts)) = !(inWindow w ts) := by
  rw [Bool.eq_iff_iff]
  simp [inWindow]

theorem clearOrdersByDate_kept (s : DBState) (w : DayWindow) :
    (DBService.clearOrdersByDate s w).1.orders
      = (DBService.getOrders s).filter fun o => !(inWindow w o.timestamp) := by
  simp only [DBService.clearOrdersByDate]
  apply List.filter_congr
  intro a _
  exact clearKeep_eq_not_inWindow w a.timestamp

/-- C9: `clearOrdersByDate` keeps, as a multiset, exactly the stored orders
outside the inclusive day window (every order outside the window is untouched,
every order inside it is removed — the complement of what `getOrdersByDate`
returns), returns a count equal to the number of orders `getOrdersByDate`
would return, publishes one `GENERIC_UPDATE`, and leaves menu and customers
untouched. -/
theorem clearOrdersByDate_spec (s : DBState) (dayStart : Int) :
    List.Perm ((DBService.clearOrdersByDate s (localDayWindow dayStart)).1.orders)
      (s.orders.filter fun o => !(inWindow (localDayWindow dayStart) o.timestamp)) ∧
    (DBService.clearOrdersByDate s (localDayWindow dayStart)).2.1
      = (DBService.getOrdersByDate s (localDayWindow dayStart)).length ∧
    (DBService.clearOrdersByDate s (localDayWindow dayStart)).2.2
      = [⟨DBEventType.GENERIC_UPDATE, DBEventData.noData⟩] ∧
    (DBService.clearOrdersByDate s (localDayWindow dayStart)).1.menu = s.menu ∧
    (DBService.clearOrdersByDate s (localDayWindow dayStart)).1.customers
      = s.customers := by
  refine ⟨?_, ?_, rfl, rfl, rfl⟩
  · rw [clearOrdersByDate_kept]
    exact (sortOrders_perm s.orders).filter _
  · have hkept := clearOrdersByDate_kept s (localDayWindow dayStart)
    have hsplit := length_filter_add_length_filter_not (DBService.getOrders s)
      (fun o => inWindow (localDayWindow dayStart) o.timestamp)
    have hlen : (DBService.getOrders s).length = s.orders.length :=
      (sortOrders_perm s.orders).length_eq
    have hcount : (DBService.clearOrdersByDate s (localDayWindow dayStart)).2.1
        = (DBService.getOrders s).length
          - ((DBService.clearOrdersByDate s (localDayWindow dayStart)).1.orders).length := by
      simp only [DBService.clearOrdersByDate, DBService.getOrders]
    rw [hcount, hkept]
    simp only [DBService.getOrdersByDate]
    omega

theorem addMenuItems_menu (s : DBState) (calls : List (MenuItemData × Nat)) :
    (addMenuItems s calls).menu
      = s.menu ++ calls.map fun c => mkMenuItem c.1 c.2 := by
  induction calls generalizing s with
  | nil => simp [addMenuItems]
  | cons c rest ih =>
      simp only [addMenuItems, List.foldl_cons, List.map_cons]
      rw [show List.foldl (fun st c => (DBService.addMenuItem st c.1 c.2).1)
          (DBService.addMenuItem s c.1 c.2).1 rest
          = addMenuItems (DBService.addMenuItem s c.1 c.2).1 rest from rfl, ih]
      simp [DBService.addMenuItem]

/-- C5 counterexample: starting from an empty menu, two `addMenuItem` calls
that both observe `Date.now() = 5` assign id 5 twice — the resulting menu
holds two items sharing an id, so the assigned ids are not unique for every
call sequence. -/
theorem addMenuItem_id_collision :
    ((addMenuItems ⟨[], [], []⟩
        [(⟨"Latte", 5000, "Coffee", none, none⟩, 5),
         (⟨"Mocha", 6000, "Coffee", none, none⟩, 5)]).menu.map MenuItem.id
      = [5, 5]) ∧
    ¬ ((addMenuItems ⟨[], [], []⟩
        [(⟨"Latte", 5000, "Coffee", none, none⟩, 5),
         (⟨"Mocha", 6000, "Coffee", none, none⟩, 5)]).menu.map MenuItem.id).Nodup := by
  constructor
  · rfl
  · decide

/-- C5 amended: each `addMenuItem` call appends an item whose id is exactly
the `Date.now()` value it observes, so after any call sequence the menu's ids
are the previous ids followed by the observed timestamps; provided those
timestamps are pairwise distinct and distinct from every id already in the
menu (the monotone-clock assumption), all ids in the resulting menu are
unique. -/
theorem addMenuItem_id_unique (s : DBState) (calls : List (MenuItemData × Nat))
    (h : (s.menu.map MenuItem.id ++ calls.map Prod.snd).Nodup) :
    ((addMenuItems s calls).menu.map MenuItem.id
      = s.menu.map MenuItem.id ++ calls.map Prod.snd) ∧
    ((addMenuItems s calls).menu.map MenuItem.id).Nodup := by
  have hmenu : (addMenuItems s calls).menu.map MenuItem.id
      = s.menu.map MenuItem.id ++ calls.map Prod.snd := by
    rw [addMenuItems_menu]
    simp [mkMenuItem, Function.comp]
  exact ⟨hmenu, hmenu ▸ h⟩

/-- Witness for C5: from an empty menu, adding "Latte" at `Date.now() = 5`
and "Mocha" at `Date.now() = 6` yields menu ids `[5, 6]`, which are unique. -/
theorem addMenuItem_id_unique_witness :
    ((addMenuItems ⟨[], [], []⟩
        [(⟨"Latte", 5000, "Coffee", none, none⟩, 5),
         (⟨"Mocha", 6000, "Coffee", none, none⟩, 6)]).menu.map MenuItem.id
      = [5, 6]) ∧
    ((addMenuItems ⟨[], [], []⟩
        [(⟨"Latte", 5000, "Coffee", none, none⟩, 5),
         (⟨"Mocha", 6000, "Coffee", none, none⟩, 6)]).menu.map MenuItem.id).Nodup := by
  have h := addMenuItem_id_unique ⟨[], [], []⟩
    [(⟨"Latte", 5000, "Coffee", none, none⟩, 5),
     (⟨"Mocha", 6000, "Coffee", none, none⟩, 6)] (by decide)
  exact ⟨h.1, h.2⟩

theorem registerCustomer_phone_found (s : DBState) (d : CustomerData) (now : Nat)
    (h : ∃ c ∈ s.customers, c.phone = d.phone) :
    DBService.registerCustomer s d now
      = (Except.error "Phone number already registered.", s, []) := by
  obtain ⟨c, hc, hphone⟩ := h
  have hf : (s.customers.find? fun c => c.phone == d.phone).isSome = true := by
    rw [List.find?_isSome]
    exact ⟨c, hc, by simp [hphone]⟩
  simp [DBService.registerCustomer, hf]

theorem registerCustomer_phone_fresh (s : DBState) (d : CustomerData) (now : Nat)
    (h : ∀ c ∈ s.customers, c.phone ≠ d.phone) :
    DBService.registerCustomer s d now
      = (Except.ok ⟨customerIdFor now, d.name, d.phone, d.address, d.password⟩,
         { s with customers := s.customers
            ++ [⟨customerIdFor now, d.name, d.phone, d.address, d.password⟩] },
         []) := by
  have hf : (s.customers.find? fun c => c.phone == d.phone) = none := by
    apply List.find?_eq_none.mpr
    intro x hx
    simp [h x hx]
  simp [DBService.registerCustomer, hf]

/-- C7 counterexample: two registrations with distinct phone numbers that both
observe `Date.now() = 5` are both accepted, and the second returns a customer
whose id `CUST-5` equals the id already issued to the first — the returned id
is not distinct from all previously issued ids. -/
theorem registerCustomer_id_collision :
    ((DBService.registerCustomer
        (DBService.registerCustomer ⟨[], [], []⟩
          ⟨"Mo", "09123", "Yangon", some "x"⟩ 5).2.1
        ⟨"Ko", "09999", "Mandalay", some "y"⟩ 5).1
      = Except.ok ⟨"CUST-5", "Ko", "09999", "Mandalay", some "y"⟩) ∧
    ("CUST-5" ∈ ((DBService.registerCustomer ⟨[], [], []⟩
        ⟨"Mo", "09123", "Yangon", some "x"⟩ 5).2.1).customers.map Customer.id) := by
  constructor
  · rfl
  · decide

/-- C7 amended: `registerCustomer(data)` fails with the duplicate-phone error
exactly when a stored customer shares `data`'s phone, and then the whole state
is untouched; with a new phone it persists and returns the customer with id
`` `CUST-${now}` ``; no event is ever published; and the returned id is
distinct from all previously issued ids provided no earlier registration
observed the same `Date.now()` value (i.e. the derived id is not already in
the store). -/
theorem registerCustomer_spec (s : DBState) (d : CustomerData) (now : Nat) :
    ((∃ c ∈ s.customers, c.phone = d.phone) →
      DBService.registerCustomer s d now
        = (Except.error "Phone number already registered.", s, [])) ∧
    ((∀ c ∈ s.customers, c.phone ≠ d.phone) →
      DBService.registerCustomer s d now
        = (Except.ok ⟨customerIdFor now, d.name, d.phone, d.address, d.password⟩,
           { s with customers := s.customers
              ++ [⟨customerIdFor now, d.name, d.phone, d.address, d.password⟩] },
           [])) ∧
    ((∀ c ∈ s.customers, c.id ≠ customerIdFor now) →
      customerIdFor now ∉ s.customers.map Customer.id) := by
  refine ⟨registerCustomer_phone_found s d now,
    registerCustomer_phone_fresh s d now, ?_⟩
  intro h hmem
  obtain ⟨c, hc, hid⟩ := List.mem_map.mp hmem
  exact h c hc hid

/-- Witness for C7: with one stored customer (phone "09123", id "CUST-3"),
re-registering phone "09123" is rejected with the store untouched, while
registering fresh phone "09999" at `Date.now() = 7` succeeds with the new id
"CUST-7", which is not among the previously issued ids. -/
theorem registerCustomer_spec_witness :
    (DBService.registerCustomer
        ⟨[], [], [⟨"CUST-3", "Mo", "09123", "Yangon", some "x"⟩]⟩
        ⟨"Ko", "09123", "Mandalay", some "y"⟩ 7
      = (Except.error "Phone number already registered.",
         ⟨[], [], [⟨"CUST-3", "Mo", "09123", "Yangon", some "x"⟩]⟩, [])) ∧
    (DBService.registerCustomer
        ⟨[], [], [⟨"CUST-3", "Mo", "09123", "Yangon", some "x"⟩]⟩
        ⟨"Ko", "09999", "Mandalay", some "y"⟩ 7
      = (Except.ok ⟨customerIdFor 7, "Ko", "09999", "Mandalay", some "y"⟩,
         ⟨[], [], [⟨"CUST-3", "Mo", "09123", "Yangon", some "x"⟩,
                   ⟨customerIdFor 7, "Ko", "09999", "Mandalay", some "y"⟩]⟩, [])) ∧
    (customerIdFor 7 ∉
      ([⟨"CUST-3", "Mo", "09123", "Yangon", some "x"⟩] : List Customer).map
        Customer.id) := by
  refine ⟨(registerCustomer_spec
      ⟨[], [], [⟨"CUST-3", "Mo", "09123", "Yangon", some "x"⟩]⟩
      ⟨"Ko", "09123", "Mandalay", some "y"⟩ 7).1
      ⟨⟨"CUST-3", "Mo", "09123", "Yangon", some "x"⟩, by simp, rfl⟩, ?_, ?_⟩
  · exact (registerCustomer_spec
      ⟨[], [], [⟨"CUST-3", "Mo", "09123", "Yangon", some "x"⟩]⟩
      ⟨"Ko", "09999", "Mandalay", some "y"⟩ 7).2.1 (by decide)
  · exact (registerCustomer_spec
      ⟨[], [], [⟨"CUST-3", "Mo", "09123", "Yangon", some "x"⟩]⟩
      ⟨"Ko", "09999", "Mandalay", some "y"⟩ 7).2.2 (by decide)
